import Mathlib

/-!
Verification of the MediTrack backend (src/backend.py) against its
natural-language specification.

The Python source is shallowly embedded: each class becomes a structure,
each method a pure function; mutation is modelled by returning the updated
value, persistence by threading an explicit users-map, and a Python
exception escaping an operation by an `Option` result (`none` = the
operation aborted before mutating anything).  Python's unbounded `int` is
`Int`; `date` values are represented by their proleptic-Gregorian day
number (an `Int`), matching `datetime.date` subtraction which yields whole
days.
-/

/-! ### Calendar helpers (embedding `datetime.strptime(s, "%Y-%m-%d")` and date subtraction) -/

/-- Gregorian leap-year test, as implemented by `datetime`. -/
def isLeapYear (y : Nat) : Bool :=
  (y % 4 == 0 && y % 100 != 0) || (y % 400 == 0)

/-- Number of days in month `m` of year `y`. -/
def daysInMonth (y m : Nat) : Nat :=
  if m == 2 then (if isLeapYear y then 29 else 28)
  else if m == 4 || m == 6 || m == 9 || m == 11 then 30
  else 31

/-- Day number of the civil date `y-m-d` counted from 0000-03-01
(the standard days-from-civil algorithm); only differences of two such
day numbers are ever used, mirroring `(appt_date - today).days`. -/
def civilToDays (y m d : Nat) : Nat :=
  let y' := if m ≤ 2 then y - 1 else y
  let era := y' / 400
  let yoe := y' % 400
  let mp := if 2 < m then m - 3 else m + 9
  let doy := (153 * mp + 2) / 5 + (d - 1)
  let doe := yoe * 365 + yoe / 4 - yoe / 100 + doy
  era * 146097 + doe

/-- Reads a nonempty all-digit character list as a natural number (the
digit part of what `int(...)`/`strptime` accept). -/
def parseDigits (cs : List Char) : Option Nat :=
  if cs.isEmpty then none
  else if cs.all Char.isDigit then
    some (cs.foldl (fun n c => n * 10 + (c.toNat - 48)) 0)
  else none

/-- Python `str.isdigit()` followed by `int(...)` on a string: nonempty
and all digits. -/
def parseNatDigits (s : String) : Option Nat :=
  parseDigits s.data

/-- Splits a character list on a delimiter character, the way Python's
`str.split("-")` groups (an empty input gives one empty group). -/
def splitOnChar (delim : Char) : List Char → List (List Char)
  | [] => [[]]
  | c :: rest =>
    match splitOnChar delim rest with
    | [] => if c = delim then [[], [c]] else [[c]]
    | g :: gs => if c = delim then [] :: g :: gs else (c :: g) :: gs

/-- Embeds `datetime.strptime(s, "%Y-%m-%d").date()`: the `_strptime`
regex wants exactly four year digits and one or two month/day digits, and
building the `date` validates 1 ≤ year, month in 1..12 and the day against
the month length; `none` when `strptime`/`date` would raise. -/
def parseIsoDate (s : String) : Option (Nat × Nat × Nat) :=
  match splitOnChar '-' s.data with
  | [ys, ms, ds] =>
    if ys.length = 4 ∧ ms.length ≤ 2 ∧ ds.length ≤ 2 then
      match parseDigits ys, parseDigits ms, parseDigits ds with
      | some y, some m, some d =>
        if 1 ≤ y ∧ 1 ≤ m ∧ m ≤ 12 ∧ 1 ≤ d ∧ d ≤ daysInMonth y m
        then some (y, m, d) else none
      | _, _, _ => none
    else none
  | _ => none

/-- First codepoints of the decimal-digit runs of Unicode 14.0 (category
`Nd`), the character database of CPython 3.11, which runs this repository:
each base starts ten consecutive codepoints carrying digit values 0-9.
`int()` accepts exactly these characters as digits, each contributing its
decimal value regardless of script. -/
def ndDigitBases : List Nat :=
  [0x30, 0x660, 0x6F0, 0x7C0, 0x966, 0x9E6, 0xA66, 0xAE6, 0xB66, 0xBE6
    , 0xC66, 0xCE6, 0xD66, 0xDE6, 0xE50, 0xED0, 0xF20, 0x1040, 0x1090, 0x17E0
    , 0x1810, 0x1946, 0x19D0, 0x1A80, 0x1A90, 0x1B50, 0x1BB0, 0x1C40, 0x1C50, 0xA620
    , 0xA8D0, 0xA900, 0xA9D0, 0xA9F0, 0xAA50, 0xABF0, 0xFF10, 0x104A0, 0x10D30, 0x11066
    , 0x110F0, 0x11136, 0x111D0, 0x112F0, 0x11450, 0x114D0, 0x11650, 0x116C0, 0x11730, 0x118E0
    , 0x11950, 0x11C50, 0x11D50, 0x11DA0, 0x16A60, 0x16AC0, 0x16B50, 0x1D7CE, 0x1D7D8, 0x1D7E2
    , 0x1D7EC, 0x1D7F6, 0x1E140, 0x1E2F0, 0x1E950, 0x1FBF0]

/-- Decimal digit value of a character under Python's `int()`: defined for
precisely the Unicode `Nd` decimal digits (see `ndDigitBases`), e.g. the
value of both `'5'` and Arabic-Indic `U+0665` is 5. -/
def pyDecimalDigit (c : Char) : Option Nat :=
  (ndDigitBases.find? (fun b => decide (b ≤ c.toNat) && decide (c.toNat ≤ b + 9))).map
    (fun b => c.toNat - b)

/-- Continues reading the digit part of `int()` after at least one digit
has been read into `acc`: per PEP 515, a single underscore may occur
between two digits (never doubled, never trailing). -/
def pyDigitsAux (acc : Nat) : List Char → Option Nat
  | [] => some acc
  | '_' :: c :: rest =>
    match pyDecimalDigit c with
    | some v => pyDigitsAux (acc * 10 + v) rest
    | none => none
  | ['_'] => none
  | c :: rest =>
    match pyDecimalDigit c with
    | some v => pyDigitsAux (acc * 10 + v) rest
    | none => none

/-- The digit part of Python `int()`: one or more Unicode decimal digits,
with single underscores allowed only between digits (a leading underscore
is not a digit and is refused here). -/
def pyDigits (cs : List Char) : Option Nat :=
  match cs with
  | [] => none
  | c :: rest =>
    match pyDecimalDigit c with
    | some v => pyDigitsAux v rest
    | none => none

/-- Embeds Python `int(s)` on an already-stripped string: an optional
single sign followed by an underscore-grouped Unicode decimal numeral
(so `int("-1_0") = -10` and an Arabic-Indic `"-٥"` is `-5`); `none` when
`int` would raise `ValueError`. -/
def pyInt (s : String) : Option Int :=
  match s.data with
  | '-' :: rest => (pyDigits rest).map (fun n => -(n : Int))
  | '+' :: rest => (pyDigits rest).map (fun n => (n : Int))
  | cs => (pyDigits cs).map (fun n => (n : Int))

/-! ### Appointment -/

/-- Embeds class `Appointment` (src/backend.py:14-52).  `date` and `time`
are kept as the raw strings the source stores. -/
structure Appointment where
  title : String
  doctor : String
  date : String
  time : String
  location : String
  completed : Bool
deriving Repr, DecidableEq, Inhabited

/-- Embeds `Appointment.days_until` (src/backend.py:24-28):
`(strptime(self.date) - date.today()).days`, where `todayOrd` is today's
day number; `none` when `strptime` would raise on `self.date`. -/
def Appointment.days_until (a : Appointment) (todayOrd : Int) : Option Int :=
  (parseIsoDate a.date).map (fun p => (civilToDays p.1 p.2.1 p.2.2 : Int) - todayOrd)

/-- Persisted form of an `Appointment` (the dict of
`Appointment.to_dict`/`from_dict`): `location` and `completed` are read
with `data.get(...)`, so they may be absent (`none`). -/
structure AppointmentRecord where
  title : String
  doctor : String
  date : String
  time : String
  location : Option String
  completed : Option Bool
deriving Repr, DecidableEq

/-- Embeds `Appointment.to_dict` (src/backend.py:30-39): every field is
present in the produced record. -/
def Appointment.to_dict (a : Appointment) : AppointmentRecord :=
  { title := a.title, doctor := a.doctor, date := a.date, time := a.time
    , location := some a.location, completed := some a.completed }

/-- Embeds `Appointment.from_dict` (src/backend.py:41-52):
`data.get('location', '')` and `data.get('completed', False)`. -/
def Appointment.from_dict (r : AppointmentRecord) : Appointment :=
  { title := r.title, doctor := r.doctor, date := r.date, time := r.time
    , location := r.location.getD "", completed := r.completed.getD false }

/-! ### Medicine -/

/-- Embeds class `Medicine` (src/backend.py:54-100).  Counters and stock
are Python `int`s, hence `Int`. -/
structure Medicine where
  name : String
  dosage : String
  frequency : String
  start_date : String
  end_date : String
  stock : Int
  taken_today : Int
  missed_today : Int
deriving Repr, DecidableEq, Inhabited

/-- Embeds `Medicine.take_dose` (src/backend.py:66-72): returns the bool
result together with the (possibly) updated medicine. -/
def Medicine.take_dose (m : Medicine) : Bool × Medicine :=
  if m.stock ≤ 0 then (false, m)
  else (true, { m with stock := m.stock - 1, taken_today := m.taken_today + 1 })

/-- Persisted form of a `Medicine`: `taken_today` and `missed_today` are
read with `data.get(...)`, so they may be absent. -/
structure MedicineRecord where
  name : String
  dosage : String
  frequency : String
  start_date : String
  end_date : String
  stock : Int
  taken_today : Option Int
  missed_today : Option Int
deriving Repr, DecidableEq

/-- Embeds `Medicine.to_dict` (src/backend.py:74-85). -/
def Medicine.to_dict (m : Medicine) : MedicineRecord :=
  { name := m.name, dosage := m.dosage, frequency := m.frequency
    , start_date := m.start_date, end_date := m.end_date, stock := m.stock
    , taken_today := some m.taken_today, missed_today := some m.missed_today }

/-- Embeds `Medicine.from_dict` (src/backend.py:87-100):
`data.get('taken_today', 0)` and `data.get('missed_today', 0)`. -/
def Medicine.from_dict (r : MedicineRecord) : Medicine :=
  { name := r.name, dosage := r.dosage, frequency := r.frequency
    , start_date := r.start_date, end_date := r.end_date, stock := r.stock
    , taken_today := r.taken_today.getD 0, missed_today := r.missed_today.getD 0 }

/-! ### User -/

/-- Embeds class `User` (src/backend.py:102-137). -/
structure User where
  username : String
  password : String
  name : String
  medicines : List Medicine
  appointments : List Appointment
  emergency_contact : String
  emergency_phone : String
deriving Repr, DecidableEq, Inhabited

/-- Persisted form of a `User`: the four fields read with `data.get(...)`
may be absent. -/
structure UserRecord where
  username : String
  password : String
  name : String
  medicines : Option (List MedicineRecord)
  appointments : Option (List AppointmentRecord)
  emergency_contact : Option String
  emergency_phone : Option String
deriving Repr, DecidableEq

/-- Embeds `User.to_dict` (src/backend.py:113-123). -/
def User.to_dict (u : User) : UserRecord :=
  { username := u.username, password := u.password, name := u.name
    , medicines := some (u.medicines.map Medicine.to_dict)
    , appointments := some (u.appointments.map Appointment.to_dict)
    , emergency_contact := some u.emergency_contact
    , emergency_phone := some u.emergency_phone }

/-- Embeds `User.from_dict` (src/backend.py:125-137): the collections
default to `[]`, the emergency fields to `""`. -/
def User.from_dict (r : UserRecord) : User :=
  { username := r.username, password := r.password, name := r.name
    , medicines := (r.medicines.getD []).map Medicine.from_dict
    , appointments := (r.appointments.getD []).map Appointment.from_dict
    , emergency_contact := r.emergency_contact.getD ""
    , emergency_phone := r.emergency_phone.getD "" }

/-! ### Persistence (class `Database`) -/

/-- The logical content of the database file: the `"users"` mapping from
username to serialized user, kept in insertion order like a Python dict. -/
def UsersMap : Type := List (String × UserRecord)

instance : DecidableEq UsersMap := by
  unfold UsersMap; infer_instance

instance : Inhabited UsersMap := ⟨([] : List (String × UserRecord))⟩

/-- Dict assignment `users[k] = v`: updates the value in place if the key
exists, otherwise appends the pair (Python dicts preserve insertion
order). -/
def updateUsers (k : String) (v : UserRecord) : List (String × UserRecord) → List (String × UserRecord)
  | [] => [(k, v)]
  | (k', v') :: rest => if k' = k then (k, v) :: rest else (k', v') :: updateUsers k v rest

/-- Embeds `Database.save_user` (src/backend.py:158-164) at the logical
level: read-modify-write of the one user's record into the users map. -/
def Database.save_user (u : User) (users : UsersMap) : UsersMap :=
  updateUsers u.username (User.to_dict u) users

/-- One primitive file-system effect of `Database.save_data`
(src/backend.py:152-156).  `open(DATABASE_FILE, 'w')` truncates the target
file in place; `json.dump(data, f)` then writes the serialized document
into it.  There is no temporary file and no rename in the source. -/
inductive FsOp where
  | truncate
  | writeAll (content : String)
deriving Repr, DecidableEq

/-- The sequence of file-system effects `Database.save_data` performs when
asked to write `serialized` (src/backend.py:155-156): truncate the
database file, then write the new content. -/
def save_data_ops (serialized : String) : List FsOp :=
  [FsOp.truncate, FsOp.writeAll serialized]

/-- Runs a list of file-system effects against the current on-disk content
of the database file, returning the resulting content. -/
def runFs (disk : String) (ops : List FsOp) : String :=
  ops.foldl (fun d op => match op with
    | FsOp.truncate => ""
    | FsOp.writeAll s => d ++ s) disk

/-! ### Service operations (class `MediTrackApp`)

Each console operation is embedded as a pure function taking the logged-in
user, the already-read console inputs, and the users map, returning a
result tag plus the resulting user and users map.  Operations that call
`Appointment.days_until` abort with a Python exception when some stored
date fails to parse; those return `Option` with `none` for that abort
(which happens before any mutation or save). -/

/-- Predicate of the comprehension in `mark_appointment_completed`
(src/backend.py:411) and of the counts in `view_weekly_summary`
(src/backend.py:444): `a.days_until() >= 0 and not a.completed`.  Only
meaningful when the date parses; on a parse failure the enclosing
operation aborts (handled by its `Option` result). -/
def isUpcomingIncomplete (todayOrd : Int) (a : Appointment) : Bool :=
  match a.days_until todayOrd with
  | some d => decide (0 ≤ d) && !a.completed
  | none => false

/-- True when every stored appointment date of `u` parses, i.e. no
`days_until` call can raise. -/
def allDatesParse (u : User) : Bool :=
  u.appointments.all (fun a => (parseIsoDate a.date).isSome)

/-- One notification line of `check_notifications`
(src/backend.py:265-287), tagged by kind and carrying the data the line
interpolates. -/
inductive Notification where
  | todayAppt (title doctor : String)
  | upcomingAppt (title doctor : String) (days : Int)
  | lowStock (name : String) (stock : Int)
deriving Repr, DecidableEq

/-- The notification an appointment contributes in the first loop of
`check_notifications` (src/backend.py:273-278), if any. -/
def apptNote (todayOrd : Int) (a : Appointment) : Option Notification :=
  match a.days_until todayOrd with
  | some d =>
    if d = 0 ∧ a.completed = false then some (Notification.todayAppt a.title a.doctor)
    else if (1 ≤ d ∧ d ≤ 3) ∧ a.completed = false then
      some (Notification.upcomingAppt a.title a.doctor d)
    else none
  | none => none

/-- The notification a medicine contributes in the second loop of
`check_notifications` (src/backend.py:280-282), if any. -/
def medNote (m : Medicine) : Option Notification :=
  if m.stock ≤ 5 then some (Notification.lowStock m.name m.stock) else none

/-- Embeds `check_notifications` (src/backend.py:265-287): appointment
notifications in list order, then medicine notifications in list order;
`none` when some appointment date fails to parse (the loop raises). -/
def check_notifications (todayOrd : Int) (u : User) : Option (List Notification) :=
  if allDatesParse u then
    some (u.appointments.filterMap (apptNote todayOrd) ++ u.medicines.filterMap medNote)
  else none

/-- The fixed frequency table of `add_medicine` (src/backend.py:312). -/
def frequencies : List String :=
  ["Once daily", "Twice daily", "Three times daily", "Four times daily"]

/-- Embeds the frequency selection of `add_medicine`
(src/backend.py:311-316): `choice.isdigit() and 1 <= int(choice) <= 4`
selects from the table, anything else falls back to `"Once daily"`. -/
def chooseFrequency (choice : String) : String :=
  match parseNatDigits choice with
  | some n => if 1 ≤ n ∧ n ≤ 4 then frequencies.getD (n - 1) "Once daily" else "Once daily"
  | none => "Once daily"

/-- Embeds the stock input of `add_medicine` (src/backend.py:322-325):
`int(input(...).strip() or "30")` with `ValueError` giving 30.  An empty
input means 30; a non-numeric input means 30; any numeric string — a
negative one included — is taken as written. -/
def parseStockInput (s : String) : Int :=
  match pyInt (if s = "" then "30" else s) with
  | some n => n
  | none => 30

inductive AddMedicineResult where
  | nameRequired
  | dosageRequired
  | added (m : Medicine)
deriving Repr, DecidableEq

/-- Embeds `add_medicine` (src/backend.py:289-335).  `start_date` is the
formatted current date and `end_date` the already-defaulted end-date
string (both produced by the console prompt before the `Medicine` is
built). -/
def add_medicine (u : User) (name dosage freqChoice start_date end_date stockInput : String)
    (db : UsersMap) : AddMedicineResult × User × UsersMap :=
  if name = "" then (AddMedicineResult.nameRequired, u, db)
  else if dosage = "" then (AddMedicineResult.dosageRequired, u, db)
  else
    let med : Medicine :=
      { name := name, dosage := dosage, frequency := chooseFrequency freqChoice
        , start_date := start_date, end_date := end_date
        , stock := parseStockInput stockInput, taken_today := 0, missed_today := 0 }
    let u' := { u with medicines := u.medicines ++ [med] }
    (AddMedicineResult.added med, u', Database.save_user u' db)

inductive AddApptResult where
  | titleRequired
  | doctorRequired
  | added (days : Option Int)
deriving Repr, DecidableEq

/-- Embeds `add_appointment` (src/backend.py:337-367): title and doctor
required, time defaults to `"10:00"`, the appointment is appended and
saved; the confirmation afterwards shows `days_until`, which may raise —
but only after the save. -/
def add_appointment (u : User) (title doctor date_str time_str location : String)
    (todayOrd : Int) (db : UsersMap) : AddApptResult × User × UsersMap :=
  if title = "" then (AddApptResult.titleRequired, u, db)
  else if doctor = "" then (AddApptResult.doctorRequired, u, db)
  else
    let time := if time_str = "" then "10:00" else time_str
    let a : Appointment :=
      { title := title, doctor := doctor, date := date_str, time := time
        , location := location, completed := false }
    let u' := { u with appointments := u.appointments ++ [a] }
    (AddApptResult.added (a.days_until todayOrd), u', Database.save_user u' db)

inductive TakeDoseResult where
  | invalidChoice
  | outOfStock
  | success (remaining : Int) (lowStock : Bool)
deriving Repr, DecidableEq

/-- Embeds `mark_medicine_taken` (src/backend.py:369-400) after the
numeric choice has been read: a choice in `1..len(medicines)` selects the
medicine, `take_dose` runs, and only on its success is the user saved; the
remaining stock and the low-stock warning condition `stock <= 5` are
reported. -/
def mark_medicine_taken (u : User) (choice : Int) (db : UsersMap) :
    TakeDoseResult × User × UsersMap :=
  if 1 ≤ choice ∧ choice ≤ (u.medicines.length : Int) then
    let i := (choice - 1).toNat
    let m := u.medicines.getD i default
    let r := m.take_dose
    if r.1 then
      let u' := { u with medicines := u.medicines.set i r.2 }
      (TakeDoseResult.success r.2.stock (decide (r.2.stock ≤ 5)), u', Database.save_user u' db)
    else (TakeDoseResult.outOfStock, u, db)
  else (TakeDoseResult.invalidChoice, u, db)

inductive CompleteApptResult where
  | noAppointments
  | noUpcoming
  | invalidChoice
  | completedOk (title : String)
deriving Repr, DecidableEq

/-- The upcoming-incomplete appointments paired with their index in the
raw list; Python's comprehension yields aliases into the raw list, so the
index records which raw-list entry each filtered entry is. -/
def upcomingWithIdx (todayOrd : Int) (appts : List Appointment) : List (Nat × Appointment) :=
  appts.enum.filter (fun p => isUpcomingIncomplete todayOrd p.2)

/-- Embeds `mark_appointment_completed` (src/backend.py:402-434): empty
raw list refused first; then the upcoming-incomplete subset is computed
(raising — `none` — if some date fails to parse); an empty subset is
refused; a choice in `1..len(upcoming)` marks the chosen subset element
completed (mutating the aliased raw-list entry) and saves. -/
def mark_appointment_completed (todayOrd : Int) (u : User) (choice : Int)
    (db : UsersMap) : Option (CompleteApptResult × User × UsersMap) :=
  if u.appointments.isEmpty then some (CompleteApptResult.noAppointments, u, db)
  else if allDatesParse u then
    let up := upcomingWithIdx todayOrd u.appointments
    if up.isEmpty then some (CompleteApptResult.noUpcoming, u, db)
    else if 1 ≤ choice ∧ choice ≤ (up.length : Int) then
      let p := up.getD (choice - 1).toNat (0, default)
      let u' := { u with appointments := u.appointments.set p.1 { p.2 with completed := true } }
      some (CompleteApptResult.completedOk p.2.title, u', Database.save_user u' db)
    else some (CompleteApptResult.invalidChoice, u, db)
  else none

/-- The figures `view_weekly_summary` (src/backend.py:436-462) prints.
`adherence` is `none` exactly when the source prints no adherence line;
the float division is modelled exactly in `ℚ`. -/
structure WeeklySummary where
  taken_today : Int
  missed_today : Int
  total_medicines : Nat
  upcoming_appointments : Nat
  low_stock : Nat
  adherence : Option ℚ
deriving Repr, DecidableEq

/-- Embeds `view_weekly_summary` (src/backend.py:436-462); `none` when
some appointment date fails to parse (the upcoming count raises). -/
def view_weekly_summary (todayOrd : Int) (u : User) : Option WeeklySummary :=
  if allDatesParse u then
    let taken := (u.medicines.map Medicine.taken_today).sum
    let missed := (u.medicines.map Medicine.missed_today).sum
    let total := u.medicines.length
    let upcoming := (u.appointments.filter (isUpcomingIncomplete todayOrd)).length
    let low := (u.medicines.filter (fun m => decide (m.stock ≤ 5))).length
    let adherence : Option ℚ :=
      if 0 < total then
        if 0 < taken + missed then
          some (((taken : ℚ) / ((taken : ℚ) + (missed : ℚ))) * 100)
        else none
      else none
    some { taken_today := taken, missed_today := missed, total_medicines := total
         , upcoming_appointments := upcoming, low_stock := low, adherence := adherence }
  else none

inductive PasswordResult where
  | wrongCurrent
  | emptyPassword
  | mismatch
  | changed
deriving Repr, DecidableEq

/-- Embeds `change_password` (src/backend.py:464-490). -/
def change_password (u : User) (current newPw confirm : String) (db : UsersMap) :
    PasswordResult × User × UsersMap :=
  if current ≠ u.password then (PasswordResult.wrongCurrent, u, db)
  else if newPw = "" then (PasswordResult.emptyPassword, u, db)
  else if newPw ≠ confirm then (PasswordResult.mismatch, u, db)
  else
    let u' := { u with password := newPw }
    (PasswordResult.changed, u', Database.save_user u' db)

/-- The in-scope state-mutating operations on the logged-in user, for
stating whole-program invariants.  `check_notifications` and
`view_weekly_summary` are pure (they take and return no user) and
`register_user`/`login_user` create or load a user rather than mutate one,
so the mutating surface is exactly these five. -/
inductive Op where
  | addMedicine (name dosage freqChoice end_date stockInput : String)
  | addAppointment (title doctor date_str time_str location : String)
  | takeDose (choice : Int)
  | completeAppointment (choice : Int)
  | changePassword (current newPw confirm : String)
deriving Repr, DecidableEq

/-- The user state after running one operation: operations that can raise
(`mark_appointment_completed`) leave the user unchanged when they do,
since the exception fires before any mutation. -/
def applyOp (todayOrd : Int) (start_date : String) (db : UsersMap) (op : Op) (u : User) : User :=
  match op with
  | Op.addMedicine n d f e s => (add_medicine u n d f start_date e s db).2.1
  | Op.addAppointment t doc ds ts loc => (add_appointment u t doc ds ts loc todayOrd db).2.1
  | Op.takeDose c => (mark_medicine_taken u c db).2.1
  | Op.completeAppointment c =>
    match mark_appointment_completed todayOrd u c db with
    | some r => r.2.1
    | none => u
  | Op.changePassword c n cf => (change_password u c n cf db).2.1

/-! ### Concrete fixtures used by the witness theorems -/

/-- A medicine with three doses in stock, as created in-app. -/
def medA : Medicine :=
  { name := "Aspirin", dosage := "100mg", frequency := "Twice daily"
    , start_date := "2026-10-12", end_date := "2026-11-11"
    , stock := 3, taken_today := 0, missed_today := 0 }

/-- A medicine that is out of stock. -/
def medZero : Medicine := { medA with name := "Ibuprofen", stock := 0 }

/-- An appointment dated 2026-10-12, not completed. -/
def apptToday : Appointment :=
  { title := "Checkup", doctor := "Smith", date := "2026-10-12", time := "10:00"
    , location := "", completed := false }

/-- A completed appointment two days after `apptToday`. -/
def apptDone : Appointment :=
  { title := "Dentist", doctor := "Lee", date := "2026-10-14", time := "09:00"
    , location := "", completed := true }

/-- The day number of 2026-10-12, used as the reference date of the
witnesses. -/
def day0 : Int := (civilToDays 2026 10 12 : Int)

/-- A user owning the fixture medicines and appointments. -/
def userA : User :=
  { username := "alice", password := "pw1", name := "Alice A"
    , medicines := [medA, medZero], appointments := [apptToday, apptDone]
    , emergency_contact := "", emergency_phone := "" }

/-! ### Helper lemmas -/

theorem medicine_from_dict_to_dict (m : Medicine) : Medicine.from_dict (Medicine.to_dict m) = m := rfl

theorem appointment_from_dict_to_dict (a : Appointment) :
    Appointment.from_dict (Appointment.to_dict a) = a := rfl

theorem map_from_to_med (l : List Medicine) :
    (l.map Medicine.to_dict).map Medicine.from_dict = l := by
  rw [List.map_map]
  exact List.map_id'' (fun m => medicine_from_dict_to_dict m) l

theorem map_from_to_appt (l : List Appointment) :
    (l.map Appointment.to_dict).map Appointment.from_dict = l := by
  rw [List.map_map]
  exact List.map_id'' (fun a => appointment_from_dict_to_dict a) l

theorem user_from_dict_to_dict (u : User) : User.from_dict (User.to_dict u) = u := by
  cases u with
  | mk un pw nm meds appts ec ep =>
    simp only [User.from_dict, User.to_dict, Option.getD_some]
    rw [map_from_to_med, map_from_to_appt]

theorem take_dose_missed (m : Medicine) :
    (Medicine.take_dose m).2.missed_today = m.missed_today := by
  unfold Medicine.take_dose
  split <;> rfl

theorem take_dose_stock_le (m : Medicine) : (Medicine.take_dose m).2.stock ≤ m.stock := by
  unfold Medicine.take_dose
  split
  · exact le_refl _
  · show m.stock - 1 ≤ m.stock
    omega

theorem take_dose_stock_nonneg (m : Medicine) (h : 0 ≤ m.stock) :
    0 ≤ (Medicine.take_dose m).2.stock := by
  unfold Medicine.take_dose
  split
  · exact h
  · show (0 : Int) ≤ m.stock - 1
    omega

/-! ### Claim theorems -/

/-- C1: for a `Medicine` with positive stock, `take_dose` succeeds,
decrements `stock` by one and increments `taken_today` by exactly one; for
a `Medicine` with `stock = 0` it fails and changes nothing. -/
theorem C1_take_dose (m : Medicine) :
    (0 < m.stock → Medicine.take_dose m =
      (true, { m with stock := m.stock - 1, taken_today := m.taken_today + 1 })) ∧
    (m.stock = 0 → Medicine.take_dose m = (false, m)) := by
  constructor
  · intro h
    unfold Medicine.take_dose
    rw [if_neg (by omega)]
  · intro h
    unfold Medicine.take_dose
    rw [if_pos (by omega)]

theorem C1_take_dose_witness :
    Medicine.take_dose medA = (true, { medA with stock := 2, taken_today := 1 }) ∧
    Medicine.take_dose medZero = (false, medZero) :=
  ⟨(C1_take_dose medA).1 (by decide), (C1_take_dose medZero).2 (by decide)⟩

/-- C2 (counterexample): a save interrupted right after `open(DATABASE_FILE, 'w')`
leaves the file empty, not with its previous content — the write is a
direct in-place overwrite, not an atomic replace. -/
theorem C2_counterexample :
    runFs "old-content" ((save_data_ops "new-content").take 1) ≠ "old-content" := by
  decide

/-- C2 (amended): `save_data` overwrites the database file in place —
`open(..., 'w')` truncates the target before `json.dump` writes the new
content — so a save that fails between truncation and the completed write
leaves the file empty, destroying the previous on-disk content; only a
save that runs to completion leaves the new serialized document. -/
theorem C2_save_overwrites_in_place (prev s : String) :
    runFs prev (save_data_ops s) = s ∧
    runFs prev ((save_data_ops s).take 1) = "" := by
  constructor
  · show "" ++ s = s
    exact String.empty_append s
  · rfl

/-- C4: serialization round-trips field-wise for `Medicine`,
`Appointment` and `User`, and `from_dict` substitutes the documented
defaults for absent optional fields (`location=""`, `completed=false`,
`taken_today=0`, `missed_today=0`, `emergency_contact=""`,
`emergency_phone=""`). -/
theorem C4_roundtrip :
    (∀ m : Medicine, Medicine.from_dict (Medicine.to_dict m) = m) ∧
    (∀ a : Appointment, Appointment.from_dict (Appointment.to_dict a) = a) ∧
    (∀ u : User, User.from_dict (User.to_dict u) = u) ∧
    (∀ r : AppointmentRecord, r.location = none → r.completed = none →
      (Appointment.from_dict r).location = "" ∧ (Appointment.from_dict r).completed = false) ∧
    (∀ r : MedicineRecord, r.taken_today = none → r.missed_today = none →
      (Medicine.from_dict r).taken_today = 0 ∧ (Medicine.from_dict r).missed_today = 0) ∧
    (∀ r : UserRecord, r.emergency_contact = none → r.emergency_phone = none →
      (User.from_dict r).emergency_contact = "" ∧ (User.from_dict r).emergency_phone = "") := by
  refine ⟨medicine_from_dict_to_dict, appointment_from_dict_to_dict, user_from_dict_to_dict, ?_, ?_, ?_⟩
  · intro r h1 h2
    simp [Appointment.from_dict, h1, h2]
  · intro r h1 h2
    simp [Medicine.from_dict, h1, h2]
  · intro r h1 h2
    simp [User.from_dict, h1, h2]

/-- An appointment record with the optional fields absent. -/
def recA : AppointmentRecord :=
  { title := "Checkup", doctor := "Smith", date := "2026-10-12", time := "10:00"
    , location := none, completed := none }

/-- A medicine record with the optional fields absent. -/
def recM : MedicineRecord :=
  { name := "Aspirin", dosage := "100mg", frequency := "Twice daily"
    , start_date := "2026-10-12", end_date := "2026-11-11", stock := 3
    , taken_today := none, missed_today := none }

/-- A user record with the optional fields absent. -/
def recU : UserRecord :=
  { username := "alice", password := "pw1", name := "Alice A"
    , medicines := none, appointments := none
    , emergency_contact := none, emergency_phone := none }

theorem C4_roundtrip_witness :
    Medicine.from_dict (Medicine.to_dict medA) = medA ∧
    Appointment.from_dict (Appointment.to_dict apptToday) = apptToday ∧
    User.from_dict (User.to_dict userA) = userA ∧
    ((Appointment.from_dict recA).location = "" ∧ (Appointment.from_dict recA).completed = false) ∧
    ((Medicine.from_dict recM).taken_today = 0 ∧ (Medicine.from_dict recM).missed_today = 0) ∧
    ((User.from_dict recU).emergency_contact = "" ∧ (User.from_dict recU).emergency_phone = "") :=
  ⟨C4_roundtrip.1 medA, C4_roundtrip.2.1 apptToday, C4_roundtrip.2.2.1 userA
    , C4_roundtrip.2.2.2.1 recA rfl rfl, C4_roundtrip.2.2.2.2.1 recM rfl rfl
    , C4_roundtrip.2.2.2.2.2 recU rfl rfl⟩

theorem add_medicine_appointments (u : User) (n d f sd e s : String) (db : UsersMap) :
    (add_medicine u n d f sd e s db).2.1.appointments = u.appointments := by
  unfold add_medicine
  split
  · rfl
  · split
    · rfl
    · rfl

theorem add_medicine_medicines (u : User) (n d f sd e s : String) (db : UsersMap) :
    (add_medicine u n d f sd e s db).2.1.medicines = u.medicines ∨
    (add_medicine u n d f sd e s db).2.1.medicines = u.medicines ++
      [{ name := n, dosage := d, frequency := chooseFrequency f, start_date := sd
         , end_date := e, stock := parseStockInput s, taken_today := 0, missed_today := 0 }] := by
  unfold add_medicine
  split
  · exact Or.inl rfl
  · split
    · exact Or.inl rfl
    · exact Or.inr rfl

theorem add_appointment_medicines (u : User) (t doc ds ts loc : String) (o : Int) (db : UsersMap) :
    (add_appointment u t doc ds ts loc o db).2.1.medicines = u.medicines := by
  unfold add_appointment
  split
  · rfl
  · split
    · rfl
    · rfl

theorem add_appointment_appointments (u : User) (t doc ds ts loc : String) (o : Int)
    (db : UsersMap) :
    ∃ tail, (add_appointment u t doc ds ts loc o db).2.1.appointments =
      u.appointments ++ tail := by
  unfold add_appointment
  split
  · exact ⟨[], (List.append_nil _).symm⟩
  · split
    · exact ⟨[], (List.append_nil _).symm⟩
    · exact ⟨_, rfl⟩

theorem mark_medicine_taken_appointments (u : User) (c : Int) (db : UsersMap) :
    (mark_medicine_taken u c db).2.1.appointments = u.appointments := by
  simp only [mark_medicine_taken]
  split
  · split
    · rfl
    · rfl
  · rfl

theorem mark_medicine_taken_medicines (u : User) (c : Int) (db : UsersMap) :
    (mark_medicine_taken u c db).2.1.medicines = u.medicines ∨
    ∃ i m, u.medicines[i]? = some m ∧
      (mark_medicine_taken u c db).2.1.medicines =
        u.medicines.set i (Medicine.take_dose m).2 := by
  simp only [mark_medicine_taken]
  split
  case isTrue h =>
    split
    case isTrue h2 =>
      have hlt : (c - 1).toNat < u.medicines.length := by omega
      refine Or.inr ⟨(c - 1).toNat, u.medicines.getD (c - 1).toNat default, ?_, rfl⟩
      rw [List.getD_eq_getElem?_getD, List.getElem?_eq_getElem hlt]
      rfl
    case isFalse h2 => exact Or.inl rfl
  case isFalse h => exact Or.inl rfl

theorem change_password_keeps (u : User) (c n cf : String) (db : UsersMap) :
    (change_password u c n cf db).2.1.medicines = u.medicines ∧
    (change_password u c n cf db).2.1.appointments = u.appointments := by
  unfold change_password
  split
  · exact ⟨rfl, rfl⟩
  · split
    · exact ⟨rfl, rfl⟩
    · split
      · exact ⟨rfl, rfl⟩
      · exact ⟨rfl, rfl⟩

theorem upcomingWithIdx_getElem (o : Int) (l : List Appointment) (k : Nat)
    (p : Nat × Appointment) (h : (upcomingWithIdx o l)[k]? = some p) :
    l[p.1]? = some p.2 ∧ isUpcomingIncomplete o p.2 = true := by
  have hm := List.getElem?_mem h
  unfold upcomingWithIdx at hm
  have hf := List.mem_filter.mp hm
  exact ⟨List.mk_mem_enum_iff_getElem?.mp (by simpa using hf.1), hf.2⟩

theorem map_snd_filter_enumFrom (q : Appointment → Bool) (n : Nat) (l : List Appointment) :
    ((List.enumFrom n l).filter (fun p => q p.2)).map Prod.snd = l.filter q := by
  induction l generalizing n with
  | nil => rfl
  | cons a t ih =>
    simp only [List.enumFrom_cons, List.filter_cons]
    by_cases h : q a
    · simp [h, ih]
    · simp [h, ih]

theorem map_snd_upcomingWithIdx (o : Int) (l : List Appointment) :
    (upcomingWithIdx o l).map Prod.snd = l.filter (isUpcomingIncomplete o) :=
  map_snd_filter_enumFrom (isUpcomingIncomplete o) 0 l

theorem upcomingWithIdx_length (o : Int) (l : List Appointment) :
    (upcomingWithIdx o l).length = (l.filter (isUpcomingIncomplete o)).length := by
  rw [← map_snd_upcomingWithIdx]
  exact (List.length_map _ _).symm

theorem completed_false_of_upcoming (o : Int) (a : Appointment)
    (h : isUpcomingIncomplete o a = true) : a.completed = false := by
  unfold isUpcomingIncomplete at h
  rcases hd : a.days_until o with _ | d <;> rw [hd] at h
  · exact absurd h (by simp)
  · cases hc : a.completed
    · rfl
    · rw [hc] at h
      simp at h

theorem mark_appointment_completed_user (o : Int) (u : User) (c : Int) (db : UsersMap)
    (r : CompleteApptResult × User × UsersMap)
    (h : mark_appointment_completed o u c db = some r) :
    r.2.1 = u ∨
    ∃ i a, u.appointments[i]? = some a ∧
      r.2.1 = { u with appointments := u.appointments.set i { a with completed := true } } := by
  simp only [mark_appointment_completed] at h
  split at h
  · obtain rfl := Option.some_inj.mp h
    exact Or.inl rfl
  · split at h
    · split at h
      · obtain rfl := Option.some_inj.mp h
        exact Or.inl rfl
      · split at h
        case isTrue hb =>
          obtain rfl := Option.some_inj.mp h
          have hk : (c - 1).toNat < (upcomingWithIdx o u.appointments).length := by omega
          have hget : (upcomingWithIdx o u.appointments)[(c - 1).toNat]? =
              some ((upcomingWithIdx o u.appointments).getD (c - 1).toNat (0, default)) := by
            rw [List.getD_eq_getElem?_getD, List.getElem?_eq_getElem hk]
            rfl
          have hfact := upcomingWithIdx_getElem o u.appointments (c - 1).toNat _ hget
          exact Or.inr ⟨_, _, hfact.1, rfl⟩
        case isFalse hb =>
          obtain rfl := Option.some_inj.mp h
          exact Or.inl rfl
    · exact absurd h (by simp)

theorem completeAppointment_user (o : Int) (sd : String) (db : UsersMap) (c : Int) (u : User) :
    applyOp o sd db (Op.completeAppointment c) u = u ∨
    ∃ i a, u.appointments[i]? = some a ∧
      applyOp o sd db (Op.completeAppointment c) u =
        { u with appointments := u.appointments.set i { a with completed := true } } := by
  rcases hres : mark_appointment_completed o u c db with _ | r
  · simp only [applyOp, hres]
    exact Or.inl trivial
  · have hu := mark_appointment_completed_user o u c db r hres
    simp only [applyOp, hres]
    exact hu

theorem completeAppointment_medicines (o : Int) (sd : String) (db : UsersMap) (c : Int)
    (u : User) :
    (applyOp o sd db (Op.completeAppointment c) u).medicines = u.medicines := by
  rcases completeAppointment_user o sd db c u with h | ⟨i, a, _, h⟩
  · rw [h]
  · rw [h]

/-- C5: an appointment whose `completed` flag is true keeps it true across
every in-scope mutating operation (the pure notification and summary
computations take no user and return none, so they cannot reset it). -/
theorem C5_completed_never_reset (o : Int) (sd : String) (db : UsersMap) (op : Op) (u : User)
    (i : Nat) (a : Appointment) (hi : u.appointments[i]? = some a) (hc : a.completed = true) :
    ∃ a', (applyOp o sd db op u).appointments[i]? = some a' ∧ a'.completed = true := by
  cases op with
  | addMedicine n d f e s =>
    refine ⟨a, ?_, hc⟩
    show (add_medicine u n d f sd e s db).2.1.appointments[i]? = some a
    rw [add_medicine_appointments]
    exact hi
  | addAppointment t doc ds ts loc =>
    obtain ⟨tail, ht⟩ := add_appointment_appointments u t doc ds ts loc o db
    refine ⟨a, ?_, hc⟩
    show (add_appointment u t doc ds ts loc o db).2.1.appointments[i]? = some a
    rw [ht, List.getElem?_append_left (List.getElem?_eq_some_iff.mp hi).1]
    exact hi
  | takeDose c =>
    refine ⟨a, ?_, hc⟩
    show (mark_medicine_taken u c db).2.1.appointments[i]? = some a
    rw [mark_medicine_taken_appointments]
    exact hi
  | completeAppointment c =>
    rcases completeAppointment_user o sd db c u with h | ⟨j, b, hj, h⟩
    · exact ⟨a, by rw [h]; exact hi, hc⟩
    · rw [h]
      by_cases hij : j = i
      · subst hij
        refine ⟨{ b with completed := true }, ?_, rfl⟩
        show (u.appointments.set j { b with completed := true })[j]? = _
        rw [List.getElem?_set_self', hj]
        rfl
      · refine ⟨a, ?_, hc⟩
        show (u.appointments.set j { b with completed := true })[i]? = some a
        rw [List.getElem?_set_ne hij]
        exact hi
  | changePassword cpw npw cf =>
    refine ⟨a, ?_, hc⟩
    show (change_password u cpw npw cf db).2.1.appointments[i]? = some a
    rw [(change_password_keeps u cpw npw cf db).2]
    exact hi

theorem C5_witness :
    ∃ a', (applyOp day0 "2026-10-12" [] (Op.completeAppointment 1) userA).appointments[1]? =
      some a' ∧ a'.completed = true :=
  C5_completed_never_reset day0 "2026-10-12" [] (Op.completeAppointment 1) userA 1 apptDone
    rfl rfl

theorem adherence_of_missed_zero (o : Int) (u : User)
    (h : ∀ m ∈ u.medicines, m.missed_today = 0) (s : WeeklySummary) (q : ℚ)
    (hs : view_weekly_summary o u = some s) (hq : s.adherence = some q) : q = 100 := by
  have hm0 : (u.medicines.map Medicine.missed_today).sum = 0 := by
    refine List.sum_eq_zero ?_
    intro x hx
    obtain ⟨m, hm, rfl⟩ := List.mem_map.mp hx
    exact h m hm
  simp only [view_weekly_summary] at hs
  split at hs
  case isTrue hp =>
    obtain rfl := Option.some_inj.mp hs
    dsimp only at hq
    rw [hm0] at hq
    split at hq
    · split at hq
      case isTrue h2 =>
        obtain rfl := Option.some_inj.mp hq
        rw [Int.cast_zero, add_zero, div_self, one_mul]
        exact Int.cast_ne_zero.mpr (by omega)
      case isFalse h2 => exact absurd hq (by simp)
    · exact absurd hq (by simp)
  case isFalse hp => exact absurd hs (by simp)

/-- C10: no operation changes any medicine's `missed_today` (only
`Medicine.__init__` sets it, to 0, and `take_dose` leaves it alone), newly
added medicines start with `missed_today = 0`, and for a user all of whose
medicines have `missed_today = 0` — as any set of in-app-created medicines
does — the weekly-summary adherence rate, whenever present, is exactly
100. -/
theorem C10_missed_never_incremented (o : Int) (sd : String) (db : UsersMap) (op : Op)
    (u : User) :
    (∀ (j : Nat) (m : Medicine), u.medicines[j]? = some m →
      ∃ m', (applyOp o sd db op u).medicines[j]? = some m' ∧
        m'.missed_today = m.missed_today) ∧
    ((∀ m ∈ u.medicines, m.missed_today = 0) →
      ∀ m ∈ (applyOp o sd db op u).medicines, m.missed_today = 0) ∧
    ((∀ m ∈ u.medicines, m.missed_today = 0) →
      ∀ (s : WeeklySummary) (q : ℚ), view_weekly_summary o u = some s →
        s.adherence = some q → q = 100) := by
  refine ⟨?_, ?_, fun h s q hs hq => adherence_of_missed_zero o u h s q hs hq⟩
  · intro j m hj
    cases op with
    | addMedicine n d f e s =>
      rcases add_medicine_medicines u n d f sd e s db with h | h
      · refine ⟨m, ?_, rfl⟩
        show (add_medicine u n d f sd e s db).2.1.medicines[j]? = some m
        rw [h]
        exact hj
      · refine ⟨m, ?_, rfl⟩
        show (add_medicine u n d f sd e s db).2.1.medicines[j]? = some m
        rw [h, List.getElem?_append_left (List.getElem?_eq_some_iff.mp hj).1]
        exact hj
    | addAppointment t doc ds ts loc =>
      refine ⟨m, ?_, rfl⟩
      show (add_appointment u t doc ds ts loc o db).2.1.medicines[j]? = some m
      rw [add_appointment_medicines]
      exact hj
    | takeDose c =>
      rcases mark_medicine_taken_medicines u c db with h | ⟨i, mi, hi, h⟩
      · refine ⟨m, ?_, rfl⟩
        show (mark_medicine_taken u c db).2.1.medicines[j]? = some m
        rw [h]
        exact hj
      · by_cases hij : i = j
        · subst hij
          have hmi : mi = m := by
            rw [hi] at hj
            exact Option.some_inj.mp hj
          refine ⟨(Medicine.take_dose mi).2, ?_, ?_⟩
          · show (mark_medicine_taken u c db).2.1.medicines[i]? = _
            rw [h, List.getElem?_set_self', hi]
            rfl
          · rw [take_dose_missed, hmi]
        · refine ⟨m, ?_, rfl⟩
          show (mark_medicine_taken u c db).2.1.medicines[j]? = some m
          rw [h, List.getElem?_set_ne hij]
          exact hj
    | completeAppointment c =>
      refine ⟨m, ?_, rfl⟩
      rw [completeAppointment_medicines]
      exact hj
    | changePassword cpw npw cf =>
      refine ⟨m, ?_, rfl⟩
      show (change_password u cpw npw cf db).2.1.medicines[j]? = some m
      rw [(change_password_keeps u cpw npw cf db).1]
      exact hj
  · intro h0 m hm
    cases op with
    | addMedicine n d f e s =>
      rcases add_medicine_medicines u n d f sd e s db with h | h
      · rw [show applyOp o sd db (Op.addMedicine n d f e s) u =
            (add_medicine u n d f sd e s db).2.1 from rfl, h] at hm
        exact h0 m hm
      · rw [show applyOp o sd db (Op.addMedicine n d f e s) u =
            (add_medicine u n d f sd e s db).2.1 from rfl, h] at hm
        rcases List.mem_append.mp hm with hm' | hm'
        · exact h0 m hm'
        · rw [List.mem_singleton.mp hm']
    | addAppointment t doc ds ts loc =>
      rw [show applyOp o sd db (Op.addAppointment t doc ds ts loc) u =
          (add_appointment u t doc ds ts loc o db).2.1 from rfl,
        add_appointment_medicines] at hm
      exact h0 m hm
    | takeDose c =>
      rcases mark_medicine_taken_medicines u c db with h | ⟨i, mi, hi, h⟩
      · rw [show applyOp o sd db (Op.takeDose c) u = (mark_medicine_taken u c db).2.1
            from rfl, h] at hm
        exact h0 m hm
      · rw [show applyOp o sd db (Op.takeDose c) u = (mark_medicine_taken u c db).2.1
            from rfl, h] at hm
        rcases List.mem_or_eq_of_mem_set hm with hm' | hm'
        · exact h0 m hm'
        · rw [hm', take_dose_missed]
          exact h0 mi (List.getElem?_mem hi)
    | completeAppointment c =>
      rw [completeAppointment_medicines] at hm
      exact h0 m hm
    | changePassword cpw npw cf =>
      rw [show applyOp o sd db (Op.changePassword cpw npw cf) u =
          (change_password u cpw npw cf db).2.1 from rfl,
        (change_password_keeps u cpw npw cf db).1] at hm
      exact h0 m hm

theorem C10_witness :
    (∀ (j : Nat) (m : Medicine), userA.medicines[j]? = some m →
      ∃ m', (applyOp day0 "2026-10-12" [] (Op.takeDose 1) userA).medicines[j]? = some m' ∧
        m'.missed_today = m.missed_today) ∧
    ((∀ m ∈ userA.medicines, m.missed_today = 0) →
      ∀ m ∈ (applyOp day0 "2026-10-12" [] (Op.takeDose 1) userA).medicines,
        m.missed_today = 0) ∧
    ((∀ m ∈ userA.medicines, m.missed_today = 0) →
      ∀ (s : WeeklySummary) (q : ℚ), view_weekly_summary day0 userA = some s →
        s.adherence = some q → q = 100) :=
  C10_missed_never_incremented day0 "2026-10-12" [] (Op.takeDose 1) userA

/-- Condition under which an operation cannot introduce negative stock:
`add_medicine` must be given a stock input that does not parse to a
negative integer (empty and non-numeric inputs fall back to 30); every
other operation is unconstrained. -/
def stockInputOk : Op → Prop
  | Op.addMedicine _ _ _ _ s => 0 ≤ parseStockInput s
  | _ => True

/-- C3 (counterexample): `add_medicine` accepts the numeric stock input
`"-5"` — `int("-5")` does not raise, so the documented default of 30 for
non-numeric input does not apply — and creates a medicine with stock
`-5 < 0`. -/
theorem C3_counterexample :
    parseStockInput "-5" = -5 ∧
    ((add_medicine userA "VitaminC" "500mg" "1" "2026-10-12" "2026-11-11" "-5"
      []).2.1.medicines.map Medicine.stock) = [3, 0, -5] ∧ (-5 : Int) < 0 := by
  decide

/-- C3 (amended): `take_dose` decrements stock only when it is positive,
so it preserves `stock ≥ 0`, and no operation ever increases an existing
medicine's stock; every in-scope operation preserves `stock ≥ 0` across
the whole collection provided `add_medicine` stock inputs do not parse to
a negative integer — a numeric negative input (e.g. `"-5"`) is the one way
to create a medicine with negative stock. -/
theorem C3_stock_nonneg (o : Int) (sd : String) (db : UsersMap) (op : Op) (u : User) :
    ((∀ m ∈ u.medicines, 0 ≤ m.stock) → stockInputOk op →
      ∀ m ∈ (applyOp o sd db op u).medicines, 0 ≤ m.stock) ∧
    (∀ (j : Nat) (m m' : Medicine), u.medicines[j]? = some m →
      (applyOp o sd db op u).medicines[j]? = some m' → m'.stock ≤ m.stock) := by
  constructor
  · intro h0 hok m hm
    cases op with
    | addMedicine n d f e s =>
      rcases add_medicine_medicines u n d f sd e s db with h | h
      · rw [show applyOp o sd db (Op.addMedicine n d f e s) u =
            (add_medicine u n d f sd e s db).2.1 from rfl, h] at hm
        exact h0 m hm
      · rw [show applyOp o sd db (Op.addMedicine n d f e s) u =
            (add_medicine u n d f sd e s db).2.1 from rfl, h] at hm
        rcases List.mem_append.mp hm with hm' | hm'
        · exact h0 m hm'
        · rw [List.mem_singleton.mp hm']
          exact hok
    | addAppointment t doc ds ts loc =>
      rw [show applyOp o sd db (Op.addAppointment t doc ds ts loc) u =
          (add_appointment u t doc ds ts loc o db).2.1 from rfl,
        add_appointment_medicines] at hm
      exact h0 m hm
    | takeDose c =>
      rcases mark_medicine_taken_medicines u c db with h | ⟨i, mi, hi, h⟩
      · rw [show applyOp o sd db (Op.takeDose c) u = (mark_medicine_taken u c db).2.1
            from rfl, h] at hm
        exact h0 m hm
      · rw [show applyOp o sd db (Op.takeDose c) u = (mark_medicine_taken u c db).2.1
            from rfl, h] at hm
        rcases List.mem_or_eq_of_mem_set hm with hm' | hm'
        · exact h0 m hm'
        · rw [hm']
          exact take_dose_stock_nonneg mi (h0 mi (List.getElem?_mem hi))
    | completeAppointment c =>
      rw [completeAppointment_medicines] at hm
      exact h0 m hm
    | changePassword cpw npw cf =>
      rw [show applyOp o sd db (Op.changePassword cpw npw cf) u =
          (change_password u cpw npw cf db).2.1 from rfl,
        (change_password_keeps u cpw npw cf db).1] at hm
      exact h0 m hm
  · intro j m m' hj hj'
    cases op with
    | addMedicine n d f e s =>
      rcases add_medicine_medicines u n d f sd e s db with h | h
      · rw [show applyOp o sd db (Op.addMedicine n d f e s) u =
            (add_medicine u n d f sd e s db).2.1 from rfl, h, hj] at hj'
        rw [Option.some_inj.mp hj']
      · rw [show applyOp o sd db (Op.addMedicine n d f e s) u =
            (add_medicine u n d f sd e s db).2.1 from rfl, h,
          List.getElem?_append_left (List.getElem?_eq_some_iff.mp hj).1, hj] at hj'
        rw [Option.some_inj.mp hj']
    | addAppointment t doc ds ts loc =>
      rw [show applyOp o sd db (Op.addAppointment t doc ds ts loc) u =
          (add_appointment u t doc ds ts loc o db).2.1 from rfl,
        add_appointment_medicines, hj] at hj'
      rw [Option.some_inj.mp hj']
    | takeDose c =>
      rcases mark_medicine_taken_medicines u c db with h | ⟨i, mi, hi, h⟩
      · rw [show applyOp o sd db (Op.takeDose c) u = (mark_medicine_taken u c db).2.1
            from rfl, h, hj] at hj'
        rw [Option.some_inj.mp hj']
      · rw [show applyOp o sd db (Op.takeDose c) u = (mark_medicine_taken u c db).2.1
            from rfl, h] at hj'
        by_cases hij : i = j
        · subst hij
          rw [List.getElem?_set_self', hi] at hj'
          have hmi : mi = m := by
            rw [hi] at hj
            exact Option.some_inj.mp hj
          have hm' : m' = (Medicine.take_dose mi).2 := (Option.some_inj.mp hj').symm
          rw [hm', hmi]
          exact take_dose_stock_le m
        · rw [List.getElem?_set_ne hij, hj] at hj'
          rw [Option.some_inj.mp hj']
    | completeAppointment c =>
      rw [completeAppointment_medicines, hj] at hj'
      rw [Option.some_inj.mp hj']
    | changePassword cpw npw cf =>
      rw [show applyOp o sd db (Op.changePassword cpw npw cf) u =
          (change_password u cpw npw cf db).2.1 from rfl,
        (change_password_keeps u cpw npw cf db).1, hj] at hj'
      rw [Option.some_inj.mp hj']

theorem C3_stock_nonneg_witness :
    ((∀ m ∈ userA.medicines, 0 ≤ m.stock) → stockInputOk (Op.takeDose 1) →
      ∀ m ∈ (applyOp day0 "2026-10-12" [] (Op.takeDose 1) userA).medicines, 0 ≤ m.stock) ∧
    (∀ (j : Nat) (m m' : Medicine), userA.medicines[j]? = some m →
      (applyOp day0 "2026-10-12" [] (Op.takeDose 1) userA).medicines[j]? = some m' →
      m'.stock ≤ m.stock) :=
  C3_stock_nonneg day0 "2026-10-12" [] (Op.takeDose 1) userA

/-- C6: `mark_appointment_completed` scopes its index to the filtered
subset of appointments with `days_until >= 0 and not completed` (in list
order): an index within `1..len(subset)` completes exactly the chosen
subset element (located at its original position in the raw list) and
persists; an index outside those bounds, or an empty subset, fails with
the user and the stored data unchanged. -/
theorem C6_complete_scoped (o : Int) (u : User) (choice : Int) (db : UsersMap)
    (hp : allDatesParse u = true) :
    ((u.appointments.filter (isUpcomingIncomplete o)) = [] →
      ∃ r, mark_appointment_completed o u choice db = some (r, u, db) ∧
        (r = CompleteApptResult.noAppointments ∨ r = CompleteApptResult.noUpcoming)) ∧
    ((u.appointments.filter (isUpcomingIncomplete o)) ≠ [] →
      ¬(1 ≤ choice ∧
          choice ≤ ((u.appointments.filter (isUpcomingIncomplete o)).length : Int)) →
      mark_appointment_completed o u choice db =
        some (CompleteApptResult.invalidChoice, u, db)) ∧
    (1 ≤ choice →
      choice ≤ ((u.appointments.filter (isUpcomingIncomplete o)).length : Int) →
      ∃ (i : Nat) (a : Appointment),
        (u.appointments.filter (isUpcomingIncomplete o))[(choice - 1).toNat]? = some a ∧
        u.appointments[i]? = some a ∧ a.completed = false ∧
        mark_appointment_completed o u choice db =
          some (CompleteApptResult.completedOk a.title,
            { u with appointments := u.appointments.set i { a with completed := true } },
            Database.save_user
              { u with appointments :=
                  u.appointments.set i { a with completed := true } } db)) := by
  have hlen := upcomingWithIdx_length o u.appointments
  refine ⟨?_, ?_, ?_⟩
  · intro hf
    by_cases he : u.appointments.isEmpty = true
    · exact ⟨CompleteApptResult.noAppointments, by simp [mark_appointment_completed, he],
        Or.inl rfl⟩
    · have he' : u.appointments.isEmpty = false := by
        cases hval : u.appointments.isEmpty
        · rfl
        · exact absurd hval he
      have hup : upcomingWithIdx o u.appointments = [] := by
        have hms := map_snd_upcomingWithIdx o u.appointments
        rw [hf] at hms
        exact List.map_eq_nil_iff.mp hms
      exact ⟨CompleteApptResult.noUpcoming,
        by simp [mark_appointment_completed, he', hp, hup], Or.inr rfl⟩
  · intro hf hb
    have he' : u.appointments.isEmpty = false := by
      cases hval : u.appointments.isEmpty
      · rfl
      · rw [List.isEmpty_iff] at hval
        rw [hval] at hf
        simp at hf
    have hupne : (upcomingWithIdx o u.appointments).isEmpty = false := by
      cases hval : (upcomingWithIdx o u.appointments).isEmpty
      · rfl
      · rw [List.isEmpty_iff] at hval
        have hms := map_snd_upcomingWithIdx o u.appointments
        rw [hval] at hms
        exact absurd hms.symm hf
    have hb' : ¬(1 ≤ choice ∧
        choice ≤ ((upcomingWithIdx o u.appointments).length : Int)) := by
      rw [hlen]
      exact hb
    simp [mark_appointment_completed, he', hp, hupne, hb']
  · intro h1 h2
    have hk : (choice - 1).toNat < (upcomingWithIdx o u.appointments).length := by
      rw [hlen]
      omega
    have hget : (upcomingWithIdx o u.appointments)[(choice - 1).toNat]? =
        some ((upcomingWithIdx o u.appointments).getD (choice - 1).toNat (0, default)) := by
      rw [List.getD_eq_getElem?_getD, List.getElem?_eq_getElem hk]
      rfl
    set p := (upcomingWithIdx o u.appointments).getD (choice - 1).toNat (0, default)
      with hp_def
    have hfact := upcomingWithIdx_getElem o u.appointments (choice - 1).toNat p hget
    have hfilter :
        (u.appointments.filter (isUpcomingIncomplete o))[(choice - 1).toNat]? = some p.2 := by
      rw [← map_snd_upcomingWithIdx, List.getElem?_map, hget]
      rfl
    have hcomp := completed_false_of_upcoming o p.2 hfact.2
    have he' : u.appointments.isEmpty = false := by
      cases hval : u.appointments.isEmpty
      · rfl
      · exfalso
        rw [List.isEmpty_iff] at hval
        rw [hval] at h2
        simp at h2
        omega
    have hupne : (upcomingWithIdx o u.appointments).isEmpty = false := by
      cases hval : (upcomingWithIdx o u.appointments).isEmpty
      · rfl
      · rw [List.isEmpty_iff] at hval
        rw [hval] at hk
        simp at hk
    have hb : 1 ≤ choice ∧ choice ≤ ((upcomingWithIdx o u.appointments).length : Int) := by
      rw [hlen]
      exact ⟨h1, h2⟩
    refine ⟨p.1, p.2, hfilter, hfact.1, hcomp, ?_⟩
    simp [mark_appointment_completed, he', hp, hupne, hb]
    have hidx : (choice - 1).toNat = choice.toNat - 1 := by omega
    have hX : ((upcomingWithIdx o u.appointments)[choice.toNat - 1]?).getD (0, default) = p := by
      rw [← hidx, hget]
      rfl
    rw [hX]
    exact ⟨rfl, rfl, rfl⟩

theorem C6_witness :
    ∃ (i : Nat) (a : Appointment),
      (userA.appointments.filter (isUpcomingIncomplete day0))[((1 : Int) - 1).toNat]? =
        some a ∧
      userA.appointments[i]? = some a ∧ a.completed = false ∧
      mark_appointment_completed day0 userA 1 [] =
        some (CompleteApptResult.completedOk a.title,
          { userA with appointments := userA.appointments.set i { a with completed := true } },
          Database.save_user
            { userA with appointments :=
                userA.appointments.set i { a with completed := true } } []) :=
  (C6_complete_scoped day0 userA 1 [] (by decide)).2.2 (by decide) (by decide)

/-- C7: for a valid medicine index, an out-of-stock `take_dose` makes
`mark_medicine_taken` report out-of-stock with the user and the stored
data both unchanged (nothing is persisted); a successful one persists the
updated user and reports the remaining stock together with the low-stock
warning condition, which holds exactly when the new stock is at most 5. -/
theorem C7_take_dose_service (u : User) (choice : Int) (db : UsersMap) (m : Medicine)
    (h1 : 1 ≤ choice) (h2 : choice ≤ (u.medicines.length : Int))
    (hm : u.medicines[(choice - 1).toNat]? = some m) :
    (m.stock ≤ 0 →
      mark_medicine_taken u choice db = (TakeDoseResult.outOfStock, u, db)) ∧
    (0 < m.stock →
      mark_medicine_taken u choice db =
        (TakeDoseResult.success (m.stock - 1) (decide (m.stock - 1 ≤ 5)),
          { u with medicines := (u.medicines.set (choice - 1).toNat { m with stock := m.stock - 1, taken_today := m.taken_today + 1 }) },
          Database.save_user { u with medicines := (u.medicines.set (choice - 1).toNat { m with stock := m.stock - 1, taken_today := m.taken_today + 1 }) } db)) := by
  have hgetD : u.medicines.getD (choice - 1).toNat default = m := by
    rw [List.getD_eq_getElem?_getD, hm]
    rfl
  constructor
  · intro hst
    have hfail : Medicine.take_dose m = (false, m) := by
      unfold Medicine.take_dose
      rw [if_pos hst]
    simp only [mark_medicine_taken, hgetD]
    rw [if_pos ⟨h1, h2⟩, hfail]
    rfl
  · intro hst
    have hok : Medicine.take_dose m =
        (true, { m with stock := m.stock - 1, taken_today := m.taken_today + 1 }) := by
      unfold Medicine.take_dose
      rw [if_neg (by omega)]
    simp only [mark_medicine_taken, hgetD]
    rw [if_pos ⟨h1, h2⟩, hok]
    rfl

theorem C7_witness :
    mark_medicine_taken userA 2 [] = (TakeDoseResult.outOfStock, userA, []) ∧
    mark_medicine_taken userA 1 [] =
      (TakeDoseResult.success (medA.stock - 1) (decide (medA.stock - 1 ≤ 5)),
        { userA with medicines := (userA.medicines.set ((1 : Int) - 1).toNat { medA with stock := medA.stock - 1, taken_today := medA.taken_today + 1 }) },
        Database.save_user { userA with medicines := (userA.medicines.set ((1 : Int) - 1).toNat { medA with stock := medA.stock - 1, taken_today := medA.taken_today + 1 }) } []) :=
  ⟨(C7_take_dose_service userA 2 [] medZero (by decide) (by decide) rfl).1 (by decide),
    (C7_take_dose_service userA 1 [] medA (by decide) (by decide) rfl).2 (by decide)⟩

/-- C8: the weekly summary's adherence rate equals
`taken_sum / (taken_sum + missed_sum) * 100` (exact rational arithmetic)
whenever that denominator is nonzero — in particular 7 taken and 3 missed
give exactly 70 — and the adherence line is omitted when
`taken_sum + missed_sum = 0`, so no division by zero ever happens.  The
counters are non-negative per the data model. -/
theorem C8_weekly_adherence (o : Int) (u : User) (hp : allDatesParse u = true)
    (hc : ∀ m ∈ u.medicines, 0 ≤ m.taken_today ∧ 0 ≤ m.missed_today) :
    ∃ s, view_weekly_summary o u = some s ∧
      s.taken_today = (u.medicines.map Medicine.taken_today).sum ∧
      s.missed_today = (u.medicines.map Medicine.missed_today).sum ∧
      ((u.medicines.map Medicine.taken_today).sum +
          (u.medicines.map Medicine.missed_today).sum ≠ 0 →
        s.adherence = some
          ((((u.medicines.map Medicine.taken_today).sum : ℚ) /
            (((u.medicines.map Medicine.taken_today).sum : ℚ) +
              ((u.medicines.map Medicine.missed_today).sum : ℚ))) * 100)) ∧
      ((u.medicines.map Medicine.taken_today).sum +
          (u.medicines.map Medicine.missed_today).sum = 0 →
        s.adherence = none) ∧
      ((u.medicines.map Medicine.taken_today).sum = 7 →
        (u.medicines.map Medicine.missed_today).sum = 3 →
        s.adherence = some 70) := by
  have htm : 0 ≤ (u.medicines.map Medicine.taken_today).sum := by
    refine List.sum_nonneg ?_
    intro x hx
    obtain ⟨m, hm, rfl⟩ := List.mem_map.mp hx
    exact (hc m hm).1
  have hmm : 0 ≤ (u.medicines.map Medicine.missed_today).sum := by
    refine List.sum_nonneg ?_
    intro x hx
    obtain ⟨m, hm, rfl⟩ := List.mem_map.mp hx
    exact (hc m hm).2
  have hlen : (u.medicines.map Medicine.taken_today).sum +
      (u.medicines.map Medicine.missed_today).sum ≠ 0 → 0 < u.medicines.length := by
    intro hne
    cases hml : u.medicines with
    | nil =>
      exfalso
      rw [hml] at hne
      simp at hne
    | cons hd tl => exact Nat.succ_pos _
  refine ⟨{ taken_today := (u.medicines.map Medicine.taken_today).sum
          , missed_today := (u.medicines.map Medicine.missed_today).sum
          , total_medicines := u.medicines.length
          , upcoming_appointments := (u.appointments.filter (isUpcomingIncomplete o)).length
          , low_stock := (u.medicines.filter (fun m => decide (m.stock ≤ 5))).length
          , adherence := if 0 < u.medicines.length then (if 0 < (u.medicines.map Medicine.taken_today).sum + (u.medicines.map Medicine.missed_today).sum then some ((((u.medicines.map Medicine.taken_today).sum : ℚ) / (((u.medicines.map Medicine.taken_today).sum : ℚ) + ((u.medicines.map Medicine.missed_today).sum : ℚ))) * 100) else none) else none }
        , ?_, rfl, rfl, ?_, ?_, ?_⟩
  · simp [view_weekly_summary, hp]
  · intro hne
    show (if 0 < u.medicines.length then _ else none) = _
    rw [if_pos (hlen hne), if_pos (by omega)]
  · intro h0
    show (if 0 < u.medicines.length then _ else none) = none
    by_cases hl : 0 < u.medicines.length
    · rw [if_pos hl, if_neg (by omega)]
    · rw [if_neg hl]
  · intro h7 h3
    have hne : (u.medicines.map Medicine.taken_today).sum +
        (u.medicines.map Medicine.missed_today).sum ≠ 0 := by omega
    show (if 0 < u.medicines.length then _ else none) = _
    rw [if_pos (hlen hne), if_pos (by omega), h7, h3]
    norm_num

/-- A medicine with 7 doses recorded taken and 3 recorded missed. -/
def medB : Medicine := { medA with taken_today := 7, missed_today := 3 }

/-- A user whose single medicine gives a 70 percent adherence rate. -/
def userB : User := { userA with medicines := [medB] }

theorem C8_witness :
    ∃ s, view_weekly_summary day0 userB = some s ∧
      s.taken_today = (userB.medicines.map Medicine.taken_today).sum ∧
      s.missed_today = (userB.medicines.map Medicine.missed_today).sum ∧
      ((userB.medicines.map Medicine.taken_today).sum +
          (userB.medicines.map Medicine.missed_today).sum ≠ 0 →
        s.adherence = some
          ((((userB.medicines.map Medicine.taken_today).sum : ℚ) /
            (((userB.medicines.map Medicine.taken_today).sum : ℚ) +
              ((userB.medicines.map Medicine.missed_today).sum : ℚ))) * 100)) ∧
      ((userB.medicines.map Medicine.taken_today).sum +
          (userB.medicines.map Medicine.missed_today).sum = 0 →
        s.adherence = none) ∧
      ((userB.medicines.map Medicine.taken_today).sum = 7 →
        (userB.medicines.map Medicine.missed_today).sum = 3 →
        s.adherence = some 70) :=
  C8_weekly_adherence day0 userB (by decide) (by decide)

/-- C9: `check_notifications` emits appointment notifications first (in
list order) and medicine low-stock notifications after them (in list
order); a completed appointment never contributes an entry, a "today"
entry arises exactly from an incomplete appointment with `days_until = 0`,
and an "upcoming" entry exactly from an incomplete appointment with
`days_until` between 1 and 3. -/
theorem C9_notification_rules (o : Int) (u : User) (hp : allDatesParse u = true) :
    check_notifications o u =
      some (u.appointments.filterMap (apptNote o) ++ u.medicines.filterMap medNote) ∧
    (∀ a : Appointment, a.completed = true → apptNote o a = none) ∧
    (∀ (a : Appointment) (d : Int), a.days_until o = some d →
      ((apptNote o a = some (Notification.todayAppt a.title a.doctor)) ↔
        (d = 0 ∧ a.completed = false)) ∧
      (∀ d' : Int, (apptNote o a = some (Notification.upcomingAppt a.title a.doctor d')) ↔
        (d' = d ∧ 1 ≤ d ∧ d ≤ 3 ∧ a.completed = false))) := by
  refine ⟨by simp [check_notifications, hp], ?_, ?_⟩
  · intro a hc
    rcases hdu : a.days_until o with _ | d
    · simp [apptNote, hdu]
    · simp [apptNote, hdu, hc]
  · intro a d hd
    constructor
    · simp only [apptNote, hd]
      constructor
      · intro h
        by_cases h1 : d = 0 ∧ a.completed = false
        · exact h1
        · rw [if_neg h1] at h
          by_cases h2 : (1 ≤ d ∧ d ≤ 3) ∧ a.completed = false
          · rw [if_pos h2] at h
            exact Notification.noConfusion (Option.some_inj.mp h)
          · rw [if_neg h2] at h
            exact absurd h (by simp)
      · intro h1
        rw [if_pos h1]
    · intro d'
      simp only [apptNote, hd]
      constructor
      · intro h
        by_cases h1 : d = 0 ∧ a.completed = false
        · rw [if_pos h1] at h
          exact Notification.noConfusion (Option.some_inj.mp h)
        · rw [if_neg h1] at h
          by_cases h2 : (1 ≤ d ∧ d ≤ 3) ∧ a.completed = false
          · rw [if_pos h2] at h
            have hinj := Option.some_inj.mp h
            simp only [Notification.upcomingAppt.injEq] at hinj
            exact ⟨hinj.2.2.symm, h2.1.1, h2.1.2, h2.2⟩
          · rw [if_neg h2] at h
            exact absurd h (by simp)
      · rintro ⟨rfl, hd1, hd3, hcF⟩
        rw [if_neg (by rintro ⟨h0, _⟩; omega), if_pos ⟨⟨hd1, hd3⟩, hcF⟩]

theorem C9_witness :
    check_notifications day0 userA =
      some (userA.appointments.filterMap (apptNote day0) ++
        userA.medicines.filterMap medNote) :=
  (C9_notification_rules day0 userA (by decide)).1
